import Mathlib

/-!
Verification of the AI generation pipeline of promptext-notes
(retry engine, provider factory and adapters, configuration resolver,
two-stage workflow orchestrator).

The Go sources are embedded shallowly:

* `time.Duration` is `int64` nanoseconds; all duration arithmetic is modelled
  on `Int` with explicit wrap-around (`int64wrap`), since Go's `*` and `<<`
  on `int64` wrap on overflow (`x << s = 0` for `s ≥ 64`).
* Network I/O and JSON decoding are external: a single generation attempt is
  modelled as a function of the HTTP status and the already-decoded response
  body; the retried operation is a function from the attempt number to its
  outcome.
* Context cancellation is modelled by a predicate saying whether the
  caller's context is (or becomes) cancelled during the inter-attempt wait
  that follows a given attempt.
* Go functions returning `(T, error)` become `Except String T` or
  `T × Option String`; error strings are transcribed from the `fmt.Errorf`
  format strings.
-/

namespace PromptextNotes

/-! ## Machine-integer helpers (Go `int64` semantics) -/

/-- Wrap an unbounded integer into the `int64` range `[-2^63, 2^63)`,
as Go's two's-complement arithmetic does on overflow. -/
def int64wrap (x : Int) : Int := (x + 2 ^ 63) % 2 ^ 64 - 2 ^ 63

theorem int64wrap_eq_self {x : Int} (h1 : -2 ^ 63 ≤ x) (h2 : x < 2 ^ 63) :
    int64wrap x = x := by
  unfold int64wrap
  have : (x + 2 ^ 63) % 2 ^ 64 = x + 2 ^ 63 :=
    Int.emod_eq_of_lt (by omega) (by omega)
  omega

theorem int64wrap_congr {x y : Int} (h : x % 2 ^ 64 = y % 2 ^ 64) :
    int64wrap x = int64wrap y := by
  unfold int64wrap
  rw [Int.add_emod, h, ← Int.add_emod]

theorem int64wrap_emod (x : Int) : int64wrap x % 2 ^ 64 = x % 2 ^ 64 := by
  unfold int64wrap
  have h : (2:Int) ^ 64 = 2 ^ 64 := rfl
  omega

theorem int64wrap_mul_right (a b : Int) :
    int64wrap (a * int64wrap b) = int64wrap (a * b) := by
  apply int64wrap_congr
  rw [Int.mul_emod, int64wrap_emod, ← Int.mul_emod]

/-! ## `internal/config`: retry configuration (`RetryConfig` in config.go) -/

/-- `config.RetryConfig`: attempts, backoff kind, initial delay
(`time.Duration`, i.e. `int64` nanoseconds). -/
structure RetryConfig where
  attempts : Nat
  backoff : String
  initialDelay : Int
  deriving Repr, DecidableEq

/-! ## `internal/ai/retry.go` -/

/-- `calculateDelay` from retry.go.  The Go source computes
`multiplier := 1 << uint(attempt-1)` (an `int`, wrapping at 64 bits, `0` for
shift counts ≥ 64) and multiplies it into the `int64` `InitialDelay`; both
operations wrap, hence the `int64wrap`s. -/
def calculateDelay (retry : RetryConfig) (attempt : Nat) : Int :=
  if retry.backoff = "exponential" then
    int64wrap (retry.initialDelay * int64wrap (2 ^ (attempt - 1)))
  else if retry.backoff = "linear" then
    int64wrap (retry.initialDelay * attempt)
  else if retry.backoff = "constant" then
    retry.initialDelay
  else
    -- Default to exponential
    int64wrap (retry.initialDelay * int64wrap (2 ^ (attempt - 1)))

/-- The final error of `RetryWithBackoff`:
`fmt.Errorf("failed after %d attempts: %w", attempts, lastErr)`.
`lastErr = none` (a nil error, only possible when `attempts = 0`) renders as
Go's `%!w(<nil>)`. -/
def failedAfterMsg (attempts : Nat) (lastErr : Option String) : String :=
  "failed after " ++ toString attempts ++ " attempts: " ++
    (match lastErr with
     | some e => e
     | none => "%!w(<nil>)")

/-- The loop of `RetryWithBackoff` from retry.go, with the loop condition
`attempt <= attempts` turned into a structurally decreasing `remaining`
counter (`remaining = attempts - attempt + 1` at every call).

`fn attempt` is the outcome of the `attempt`-th invocation of the retried
operation; `cancel attempt` says whether the caller's context is cancelled
during the wait that follows attempt `attempt`; `ctxErr` is `ctx.Err()`.
The first component of the result counts how many times the operation was
invoked. -/
def retryGo (fn : Nat → Except String α) (cancel : Nat → Bool) (ctxErr : String)
    (retry : RetryConfig) :
    Nat → Nat → Nat → Option String → Nat × Except String α
  | 0, _, invoked, lastErr => (invoked, .error (failedAfterMsg retry.attempts lastErr))
  | remaining + 1, attempt, invoked, _ =>
    match fn attempt with
    | .ok v => (invoked + 1, .ok v)
    | .error e =>
      -- Don't sleep after the last attempt
      if attempt = retry.attempts then
        (invoked + 1, .error (failedAfterMsg retry.attempts (some e)))
      else
        -- Calculate delay based on backoff strategy, then wait with
        -- context cancellation support
        let _delay := calculateDelay retry attempt
        if cancel attempt then
          (invoked + 1, .error ("retry cancelled: " ++ ctxErr))
        else
          retryGo fn cancel ctxErr retry remaining (attempt + 1) (invoked + 1) (some e)

/-- `RetryWithBackoff` from retry.go: run `fn` up to `retry.attempts` times
starting at attempt 1. -/
def RetryWithBackoff (retry : RetryConfig) (fn : Nat → Except String α)
    (cancel : Nat → Bool) (ctxErr : String) : Nat × Except String α :=
  retryGo fn cancel ctxErr retry retry.attempts 1 0 none

/-! ## Retry-engine lemmas -/

theorem retryGo_succ {α : Type} (fn : Nat → Except String α) (cancel : Nat → Bool)
    (ctxErr : String) (retry : RetryConfig)
    (remaining attempt invoked : Nat) (le : Option String) :
    retryGo fn cancel ctxErr retry (remaining + 1) attempt invoked le =
      match fn attempt with
      | .ok v => (invoked + 1, .ok v)
      | .error e =>
        if attempt = retry.attempts then
          (invoked + 1, .error (failedAfterMsg retry.attempts (some e)))
        else if cancel attempt then
          (invoked + 1, .error ("retry cancelled: " ++ ctxErr))
        else
          retryGo fn cancel ctxErr retry remaining (attempt + 1) (invoked + 1) (some e) :=
  rfl

theorem retryGo_all_fail {α : Type} (fn : Nat → Except String α) (cancel : Nat → Bool)
    (ctxErr : String) (retry : RetryConfig)
    (hfail : ∀ j, ∃ e, fn j = .error e) (hcancel : ∀ j, cancel j = false) :
    ∀ (k attempt invoked : Nat) (le : Option String),
      attempt + k = retry.attempts →
      ∃ e, fn retry.attempts = .error e ∧
        retryGo fn cancel ctxErr retry (k + 1) attempt invoked le =
          (invoked + (k + 1), .error (failedAfterMsg retry.attempts (some e))) := by
  intro k
  induction k with
  | zero =>
    intro attempt invoked le hsum
    obtain ⟨e, he⟩ := hfail attempt
    refine ⟨e, by rw [← hsum, Nat.add_zero]; exact he, ?_⟩
    rw [retryGo_succ, he]
    simp only
    rw [if_pos (by omega)]
  | succ k ih =>
    intro attempt invoked le hsum
    obtain ⟨e, he⟩ := hfail attempt
    obtain ⟨e', he', hrec⟩ := ih (attempt + 1) (invoked + 1) (some e) (by omega)
    refine ⟨e', he', ?_⟩
    rw [retryGo_succ, he]
    simp only
    rw [if_neg (by omega), hcancel attempt]
    simp only [Bool.false_eq_true, if_false]
    rw [hrec]
    congr 1
    omega

theorem retryGo_cancelled {α : Type} (fn : Nat → Except String α) (cancel : Nat → Bool)
    (ctxErr : String) (retry : RetryConfig) (m : Nat) (hmN : m < retry.attempts)
    (hfail : ∀ j, j ≤ m → ∃ e, fn j = .error e)
    (hc1 : ∀ j, j < m → cancel j = false) (hc2 : cancel m = true) :
    ∀ (k attempt invoked : Nat) (le : Option String),
      attempt + k = m → 1 ≤ attempt →
      retryGo fn cancel ctxErr retry (retry.attempts - attempt + 1) attempt invoked le =
        (invoked + (k + 1), .error ("retry cancelled: " ++ ctxErr)) := by
  intro k
  induction k with
  | zero =>
    intro attempt invoked le hsum h1
    have ham : attempt = m := by omega
    obtain ⟨e, he⟩ := hfail attempt (by omega)
    rw [retryGo_succ, he]
    simp only
    rw [if_neg (by omega), ham, hc2]
    simp
  | succ k ih =>
    intro attempt invoked le hsum h1
    obtain ⟨e, he⟩ := hfail attempt (by omega)
    have hrem : retry.attempts - attempt + 1 = (retry.attempts - (attempt + 1) + 1) + 1 := by
      omega
    rw [hrem, retryGo_succ, he]
    simp only
    rw [if_neg (by omega), hc1 attempt (by omega)]
    simp only [Bool.false_eq_true, if_false]
    rw [ih (attempt + 1) (invoked + 1) (some e) (by omega) (by omega)]
    congr 1
    omega

/-- C1: with a non-cancelled context, `RetryWithBackoff` invokes a
permanently-failing operation exactly `attempts` times, and the error it
returns wraps the last underlying error with the attempt count (so the
message mentions the attempt count `N`). -/
theorem RetryWithBackoff_permanent_failure (retry : RetryConfig)
    (hN : 1 ≤ retry.attempts) (fn : Nat → Except String Unit)
    (hfail : ∀ j, ∃ e, fn j = .error e)
    (cancel : Nat → Bool) (hcancel : ∀ j, cancel j = false) (ctxErr : String) :
    (RetryWithBackoff retry fn cancel ctxErr).1 = retry.attempts ∧
    ∃ e, fn retry.attempts = .error e ∧
      (RetryWithBackoff retry fn cancel ctxErr).2 =
        .error ("failed after " ++ toString retry.attempts ++ " attempts: " ++ e) ∧
      ∃ pre post,
        "failed after " ++ toString retry.attempts ++ " attempts: " ++ e =
          pre ++ toString retry.attempts ++ post := by
  obtain ⟨e, he, hrun⟩ :=
    retryGo_all_fail fn cancel ctxErr retry hfail hcancel (retry.attempts - 1) 1 0 none
      (by omega)
  have hatt : retry.attempts - 1 + 1 = retry.attempts := by omega
  rw [hatt] at hrun
  rw [RetryWithBackoff, hrun]
  refine ⟨by omega, e, he, ?_, "failed after ", " attempts: " ++ e, ?_⟩
  · simp [failedAfterMsg]
  · simp [String.append_assoc]

/-- Closed witness for `RetryWithBackoff_permanent_failure` at
`attempts = 2` with an operation failing every time. -/
theorem RetryWithBackoff_permanent_failure_witness :
    (RetryWithBackoff ⟨2, "exponential", 2000000000⟩
        (fun _ => (.error "boom" : Except String Unit))
        (fun _ => false) "context deadline exceeded").1 = 2 ∧
    ∃ e, (fun _ : Nat => (.error "boom" : Except String Unit)) 2 = .error e ∧
      (RetryWithBackoff ⟨2, "exponential", 2000000000⟩
          (fun _ => (.error "boom" : Except String Unit))
          (fun _ => false) "context deadline exceeded").2 =
        .error ("failed after " ++ toString 2 ++ " attempts: " ++ e) ∧
      ∃ pre post,
        "failed after " ++ toString 2 ++ " attempts: " ++ e =
          pre ++ toString 2 ++ post :=
  RetryWithBackoff_permanent_failure ⟨2, "exponential", 2000000000⟩ (by decide)
    (fun _ => (.error "boom" : Except String Unit)) (fun j => ⟨"boom", rfl⟩)
    (fun _ => false) (fun j => rfl) "context deadline exceeded"

/-- C4: cancelling the context during the inter-attempt wait after attempt
`m < attempts` makes the retry loop abort: the operation has been invoked
exactly `m` times (never again), and the result is the distinct cancellation
error wrapping `ctx.Err()`, which differs from every exhausted-retries
error. -/
theorem RetryWithBackoff_cancelled (retry : RetryConfig)
    (fn : Nat → Except String Unit) (cancel : Nat → Bool) (ctxErr : String)
    (m : Nat) (hm : 1 ≤ m) (hmN : m < retry.attempts)
    (hfail : ∀ j, j ≤ m → ∃ e, fn j = .error e)
    (hc1 : ∀ j, j < m → cancel j = false) (hc2 : cancel m = true) :
    RetryWithBackoff retry fn cancel ctxErr =
      (m, .error ("retry cancelled: " ++ ctxErr)) ∧
    ∀ e, ("retry cancelled: " ++ ctxErr) ≠ failedAfterMsg retry.attempts e := by
  constructor
  · have hrun :=
      retryGo_cancelled fn cancel ctxErr retry m hmN hfail hc1 hc2 (m - 1) 1 0 none
        (by omega) (by omega)
    have hatt : retry.attempts - 1 + 1 = retry.attempts := by omega
    rw [hatt] at hrun
    rw [RetryWithBackoff, hrun]
    congr 1
    omega
  · intro e h
    have hd := congrArg String.data h
    unfold failedAfterMsg at hd
    rw [String.data_append, String.data_append, String.data_append,
        String.data_append] at hd
    have h1 : ("retry cancelled: ").data ≠ [] := by decide
    have h2 : ("failed after ").data ≠ [] := by decide
    have h3 : ("failed after ").data ++ (toString retry.attempts).data ≠ [] := by
      intro hc
      exact h2 (List.append_eq_nil.mp hc).1
    have h4 : ("failed after ").data ++ (toString retry.attempts).data ++
        (" attempts: ").data ≠ [] := by
      intro hc
      exact h3 (List.append_eq_nil.mp hc).1
    have hh := congrArg List.head? hd
    rw [List.head?_append_of_ne_nil _ h1, List.head?_append_of_ne_nil _ h4,
        List.head?_append_of_ne_nil _ h3, List.head?_append_of_ne_nil _ h2] at hh
    exact absurd hh (by decide)

/-- Closed witness for `RetryWithBackoff_cancelled`: three configured
attempts, the context cancelled during the wait after the first attempt. -/
theorem RetryWithBackoff_cancelled_witness :
    RetryWithBackoff ⟨3, "constant", 2000000000⟩
        (fun _ => (.error "boom" : Except String Unit))
        (fun k => k == 1) "context canceled" =
      (1, .error ("retry cancelled: " ++ "context canceled")) ∧
    ∀ e, ("retry cancelled: " ++ "context canceled") ≠ failedAfterMsg 3 e :=
  RetryWithBackoff_cancelled ⟨3, "constant", 2000000000⟩
    (fun _ => (.error "boom" : Except String Unit)) (fun k => k == 1)
    "context canceled" 1 (by decide) (by decide)
    (fun j _ => ⟨"boom", rfl⟩)
    (fun j hj => by
      obtain rfl := Nat.lt_one_iff.mp hj
      rfl)
    (by decide)

/-! ## `calculateDelay` properties -/

/-- C9: `calculateDelay` is total over backoff kinds: any string other than
the three recognized kinds silently takes the `default` branch, which is the
same computation as the `"exponential"` branch. -/
theorem calculateDelay_default_is_exponential (kind : String)
    (h1 : kind ≠ "exponential") (h2 : kind ≠ "linear") (h3 : kind ≠ "constant")
    (attempts : Nat) (d : Int) (attempt : Nat) :
    calculateDelay ⟨attempts, kind, d⟩ attempt =
      calculateDelay ⟨attempts, "exponential", d⟩ attempt := by
  simp [calculateDelay, h1, h2, h3]

/-- Closed witness for `calculateDelay_default_is_exponential` at the
unrecognized kind `"fibonacci"`. -/
theorem calculateDelay_default_is_exponential_witness :
    calculateDelay ⟨3, "fibonacci", 2000000000⟩ 3 =
      calculateDelay ⟨3, "exponential", 2000000000⟩ 3 :=
  calculateDelay_default_is_exponential "fibonacci" (by decide) (by decide) (by decide)
    3 2000000000 3

/-- C5 fails as stated: `calculateDelay` does Go `int64` arithmetic, so with
the default 2-second initial delay the exponential delay overflows and wraps
at attempt 34, where the code no longer returns
`initialDelay * 2^(attempt-1)` (it returns a negative duration). -/
theorem calculateDelay_overflow_counterexample :
    calculateDelay ⟨40, "exponential", 2000000000⟩ 34 ≠
      2000000000 * 2 ^ (34 - 1) := by decide

/-- C5 (amended): as long as the products stay inside the `int64` range,
`calculateDelay` returns `d * 2^(attempt-1)` for `"exponential"`,
`d * attempt` for `"linear"` and `d` for `"constant"`; and for a nonnegative
initial delay it is monotonically non-decreasing in the attempt for
exponential and linear (within the non-overflowing range) and constant for
`"constant"`. -/
theorem calculateDelay_spec (attempts : Nat) (d : Int) (a b : Nat)
    (ha : 1 ≤ a) (hab : a ≤ b) :
    (-2 ^ 63 ≤ d * 2 ^ (a - 1) → d * 2 ^ (a - 1) < 2 ^ 63 →
      calculateDelay ⟨attempts, "exponential", d⟩ a = d * 2 ^ (a - 1)) ∧
    (-2 ^ 63 ≤ d * a → (d * a : Int) < 2 ^ 63 →
      calculateDelay ⟨attempts, "linear", d⟩ a = d * a) ∧
    calculateDelay ⟨attempts, "constant", d⟩ a = d ∧
    (0 ≤ d → d * 2 ^ (b - 1) < 2 ^ 63 →
      calculateDelay ⟨attempts, "exponential", d⟩ a ≤
        calculateDelay ⟨attempts, "exponential", d⟩ b) ∧
    (0 ≤ d → (d * b : Int) < 2 ^ 63 →
      calculateDelay ⟨attempts, "linear", d⟩ a ≤
        calculateDelay ⟨attempts, "linear", d⟩ b) ∧
    calculateDelay ⟨attempts, "constant", d⟩ a =
      calculateDelay ⟨attempts, "constant", d⟩ b := by
  have hexp : ∀ (c : Nat), -2 ^ 63 ≤ d * 2 ^ (c - 1) → d * 2 ^ (c - 1) < 2 ^ 63 →
      calculateDelay ⟨attempts, "exponential", d⟩ c = d * 2 ^ (c - 1) := by
    intro c hlo hhi
    simp only [calculateDelay, if_pos rfl]
    rw [int64wrap_mul_right]
    exact int64wrap_eq_self hlo hhi
  have hlin : ∀ (c : Nat), -2 ^ 63 ≤ d * c → (d * c : Int) < 2 ^ 63 →
      calculateDelay ⟨attempts, "linear", d⟩ c = d * c := by
    intro c hlo hhi
    simp only [calculateDelay]
    norm_num
    exact int64wrap_eq_self hlo hhi
  have hpow : (2:Int) ^ (a - 1) ≤ 2 ^ (b - 1) := by
    apply pow_le_pow_right₀ (by norm_num)
    omega
  refine ⟨hexp a, hlin a, by simp [calculateDelay], ?_, ?_, by simp [calculateDelay]⟩
  · intro hd hb
    have hha : d * 2 ^ (a - 1) ≤ d * 2 ^ (b - 1) := by
      apply mul_le_mul_of_nonneg_left hpow hd
    have h0a : 0 ≤ d * 2 ^ (a - 1) := by positivity
    have h0b : 0 ≤ d * 2 ^ (b - 1) := by positivity
    rw [hexp a (by omega) (by omega), hexp b (by omega) hb]
    exact hha
  · intro hd hb
    have hha : d * a ≤ d * b := by
      apply mul_le_mul_of_nonneg_left (by exact_mod_cast Nat.cast_le.mpr hab) hd
    have h0a : (0:Int) ≤ d * a := by positivity
    have h0b : (0:Int) ≤ d * b := by positivity
    rw [hlin a (by omega) (by omega), hlin b (by omega) hb]
    exact hha

/-- Closed witness for `calculateDelay_spec` with the default 2-second
initial delay at attempts 1 and 2. -/
theorem calculateDelay_spec_witness :
    (-2 ^ 63 ≤ (2000000000:Int) * 2 ^ (1 - 1) → (2000000000:Int) * 2 ^ (1 - 1) < 2 ^ 63 →
      calculateDelay ⟨3, "exponential", 2000000000⟩ 1 = 2000000000 * 2 ^ (1 - 1)) ∧
    (-2 ^ 63 ≤ (2000000000:Int) * (1:Nat) → ((2000000000:Int) * (1:Nat) : Int) < 2 ^ 63 →
      calculateDelay ⟨3, "linear", 2000000000⟩ 1 = 2000000000 * (1:Nat)) ∧
    calculateDelay ⟨3, "constant", 2000000000⟩ 1 = 2000000000 ∧
    ((0:Int) ≤ 2000000000 → (2000000000:Int) * 2 ^ (2 - 1) < 2 ^ 63 →
      calculateDelay ⟨3, "exponential", 2000000000⟩ 1 ≤
        calculateDelay ⟨3, "exponential", 2000000000⟩ 2) ∧
    ((0:Int) ≤ 2000000000 → ((2000000000:Int) * (2:Nat) : Int) < 2 ^ 63 →
      calculateDelay ⟨3, "linear", 2000000000⟩ 1 ≤
        calculateDelay ⟨3, "linear", 2000000000⟩ 2) ∧
    calculateDelay ⟨3, "constant", 2000000000⟩ 1 =
      calculateDelay ⟨3, "constant", 2000000000⟩ 2 :=
  calculateDelay_spec 3 2000000000 1 2 (by decide) (by decide)

/-! ## `internal/config/config.go`: configuration resolver

The environment is passed explicitly as `env : String → String`
(`os.Getenv` returns `""` for unset variables). -/

/-- `config.PolishConfig` (the fields the verified operations read). -/
structure PolishConfig where
  enabled : Bool
  polishModel : String
  polishProvider : String
  polishAPIKeyEnv : String
  polishPrompt : String
  deriving Repr, DecidableEq

/-- `config.AIConfig` (the fields the verified operations read; the numeric
limits, timeout and `Custom` map are not consulted by any verified claim). -/
structure AIConfig where
  provider : String
  model : String
  apiKeyEnv : String
  retry : RetryConfig
  polish : PolishConfig
  deriving Repr, DecidableEq

/-- `config.Config`. -/
structure Config where
  ai : AIConfig
  deriving Repr, DecidableEq

/-- `GetDefaultAPIKeyEnv` from config.go. -/
def GetDefaultAPIKeyEnv (provider : String) : String :=
  if provider = "anthropic" then "ANTHROPIC_API_KEY"
  else if provider = "openai" then "OPENAI_API_KEY"
  else if provider = "cerebras" then "CEREBRAS_API_KEY"
  else if provider = "groq" then "GROQ_API_KEY"
  else if provider = "openrouter" then "OPENROUTER_API_KEY"
  else if provider = "ollama" then ""  -- No API key needed for local Ollama
  else ""

/-- The `validProviders` set consulted by `Config.Validate` in config.go. -/
def validProvider (provider : String) : Bool :=
  ["anthropic", "openai", "cerebras", "groq", "openrouter", "ollama"].contains provider

/-- `Config.GetAPIKey` from config.go. -/
def Config.GetAPIKey (c : Config) (env : String → String) : Except String String :=
  if c.ai.apiKeyEnv = "" then .ok ""  -- No API key required (e.g., Ollama)
  else if env c.ai.apiKeyEnv = "" then
    .error ("API key not found in environment variable: " ++ c.ai.apiKeyEnv)
  else .ok (env c.ai.apiKeyEnv)

/-- `Config.GetPolishProvider` from config.go. -/
def Config.GetPolishProvider (c : Config) : String :=
  if c.ai.polish.polishProvider ≠ "" then c.ai.polish.polishProvider
  else c.ai.provider

/-- `Config.GetPolishModel` from config.go. -/
def Config.GetPolishModel (c : Config) : String :=
  if c.ai.polish.polishModel ≠ "" then c.ai.polish.polishModel
  else c.ai.model

/-- `Config.GetPolishAPIKeyEnv` from config.go. -/
def Config.GetPolishAPIKeyEnv (c : Config) : String :=
  if c.ai.polish.polishAPIKeyEnv ≠ "" then c.ai.polish.polishAPIKeyEnv
  else GetDefaultAPIKeyEnv c.GetPolishProvider

/-- `Config.GetPolishAPIKey` from config.go. -/
def Config.GetPolishAPIKey (c : Config) (env : String → String) : Except String String :=
  if c.GetPolishProvider = c.ai.provider then c.GetAPIKey env
  else
    let apiKeyEnv := c.GetPolishAPIKeyEnv
    if apiKeyEnv = "" then .ok ""  -- No API key required (e.g., Ollama)
    else if env apiKeyEnv = "" then
      .error ("polish API key not found in environment variable: " ++ apiKeyEnv)
    else .ok (env apiKeyEnv)

/-- C8: with a distinct resolved polish provider and `polish_api_key_env`
unset, `GetPolishAPIKeyEnv` yields the polish provider's static default
environment-variable name — independent of the discovery stage's
`api_key_env` — in particular `OPENROUTER_API_KEY` for openrouter and the
empty name for ollama. -/
theorem GetPolishAPIKeyEnv_default (c : Config)
    (hunset : c.ai.polish.polishAPIKeyEnv = "")
    (_hdiff : c.GetPolishProvider ≠ c.ai.provider) :
    c.GetPolishAPIKeyEnv = GetDefaultAPIKeyEnv c.GetPolishProvider ∧
    (∀ e, Config.GetPolishAPIKeyEnv { c with ai := { c.ai with apiKeyEnv := e } } =
      c.GetPolishAPIKeyEnv) ∧
    (c.GetPolishProvider = "openrouter" → c.GetPolishAPIKeyEnv = "OPENROUTER_API_KEY") ∧
    (c.GetPolishProvider = "ollama" → c.GetPolishAPIKeyEnv = "") := by
  have hmain : c.GetPolishAPIKeyEnv = GetDefaultAPIKeyEnv c.GetPolishProvider := by
    simp [Config.GetPolishAPIKeyEnv, hunset]
  refine ⟨hmain, ?_, ?_, ?_⟩
  · intro e
    simp [Config.GetPolishAPIKeyEnv, Config.GetPolishProvider]
  · intro hor
    rw [hmain, hor]
    rfl
  · intro hol
    rw [hmain, hol]
    rfl

/-- Closed witness for `GetPolishAPIKeyEnv_default`: anthropic discovery
stage, openrouter polish stage, no `polish_api_key_env`. -/
theorem GetPolishAPIKeyEnv_default_witness :
    (Config.GetPolishAPIKeyEnv
        ⟨⟨"anthropic", "claude-haiku-4-5", "ANTHROPIC_API_KEY",
          ⟨3, "exponential", 2000000000⟩, ⟨true, "", "openrouter", "", ""⟩⟩⟩) =
      GetDefaultAPIKeyEnv (Config.GetPolishProvider
        ⟨⟨"anthropic", "claude-haiku-4-5", "ANTHROPIC_API_KEY",
          ⟨3, "exponential", 2000000000⟩, ⟨true, "", "openrouter", "", ""⟩⟩⟩) ∧
    (∀ e, Config.GetPolishAPIKeyEnv
        ⟨⟨"anthropic", "claude-haiku-4-5", e,
          ⟨3, "exponential", 2000000000⟩, ⟨true, "", "openrouter", "", ""⟩⟩⟩ =
      Config.GetPolishAPIKeyEnv
        ⟨⟨"anthropic", "claude-haiku-4-5", "ANTHROPIC_API_KEY",
          ⟨3, "exponential", 2000000000⟩, ⟨true, "", "openrouter", "", ""⟩⟩⟩) ∧
    (Config.GetPolishProvider
        ⟨⟨"anthropic", "claude-haiku-4-5", "ANTHROPIC_API_KEY",
          ⟨3, "exponential", 2000000000⟩, ⟨true, "", "openrouter", "", ""⟩⟩⟩ = "openrouter" →
      Config.GetPolishAPIKeyEnv
        ⟨⟨"anthropic", "claude-haiku-4-5", "ANTHROPIC_API_KEY",
          ⟨3, "exponential", 2000000000⟩, ⟨true, "", "openrouter", "", ""⟩⟩⟩ =
        "OPENROUTER_API_KEY") ∧
    (Config.GetPolishProvider
        ⟨⟨"anthropic", "claude-haiku-4-5", "ANTHROPIC_API_KEY",
          ⟨3, "exponential", 2000000000⟩, ⟨true, "", "openrouter", "", ""⟩⟩⟩ = "ollama" →
      Config.GetPolishAPIKeyEnv
        ⟨⟨"anthropic", "claude-haiku-4-5", "ANTHROPIC_API_KEY",
          ⟨3, "exponential", 2000000000⟩, ⟨true, "", "openrouter", "", ""⟩⟩⟩ = "") :=
  GetPolishAPIKeyEnv_default
    ⟨⟨"anthropic", "claude-haiku-4-5", "ANTHROPIC_API_KEY",
      ⟨3, "exponential", 2000000000⟩, ⟨true, "", "openrouter", "", ""⟩⟩⟩
    (by decide) (by decide)

/-! ## `internal/ai`: provider adapters and factory

An adapter instance is observed through its `Name()`; the HTTP client it
owns is external state and is not modelled. -/

/-- A constructed provider adapter (`Name()` is the field `name`). -/
structure Adapter where
  name : String
  deriving Repr, DecidableEq

/-- `NewAnthropicProvider` (anthropic adapter source). -/
def NewAnthropicProvider (apiKey : String) : Except String Adapter :=
  if apiKey = "" then .error "Anthropic API key is required" else .ok ⟨"anthropic"⟩

/-- `NewOpenAIProvider` from openai.go. -/
def NewOpenAIProvider (apiKey : String) : Except String Adapter :=
  if apiKey = "" then .error "openAI API key is required" else .ok ⟨"openai"⟩

/-- `NewCerebrasProvider` (cerebras adapter source). -/
def NewCerebrasProvider (apiKey : String) : Except String Adapter :=
  if apiKey = "" then .error "cerebras API key is required" else .ok ⟨"cerebras"⟩

/-- Modelled from the spec: the Groq adapter's own source file is missing
from the sources (only its callers appear).  Per the spec it is a chat-style
vendor with a required API key, so its constructor rejects an empty key and
its `Name()` is `"groq"`, like the sibling adapters. -/
def NewGroqProvider (apiKey : String) : Except String Adapter :=
  if apiKey = "" then .error "groq API key is required" else .ok ⟨"groq"⟩

/-- `NewOpenRouterProvider` (openrouter adapter source, alongside openai.go). -/
def NewOpenRouterProvider (apiKey : String) : Except String Adapter :=
  if apiKey = "" then .error "openrouter API key is required" else .ok ⟨"openrouter"⟩

/-- `NewOllamaProvider` (ollama adapter source): never requires a key. -/
def NewOllamaProvider : Except String Adapter := .ok ⟨"ollama"⟩

/-- The `switch cfg.AI.Provider` of `NewProvider` in provider.go.  Note the
source has cases for anthropic, openai, cerebras, groq and ollama only —
there is no `"openrouter"` case, so openrouter falls through to the
`default` branch. -/
def NewProviderSwitch (provider apiKey : String) : Except String Adapter :=
  if provider = "anthropic" then NewAnthropicProvider apiKey
  else if provider = "openai" then NewOpenAIProvider apiKey
  else if provider = "cerebras" then NewCerebrasProvider apiKey
  else if provider = "groq" then NewGroqProvider apiKey
  else if provider = "ollama" then NewOllamaProvider
  else .error ("unsupported AI provider: " ++ provider)

/-- `NewProvider` from provider.go: resolve the API key (tolerating a
lookup failure only for ollama, whose `apiKey` is then the zero value `""`)
and dispatch on the provider identifier. -/
def NewProvider (c : Config) (env : String → String) : Except String Adapter :=
  let apiKey := match c.GetAPIKey env with
                | .ok k => k
                | .error _ => ""
  match c.GetAPIKey env with
  | .error e =>
    if c.ai.provider ≠ "ollama" then .error ("failed to get API key: " ++ e)
    else NewProviderSwitch c.ai.provider apiKey
  | .ok _ => NewProviderSwitch c.ai.provider apiKey

/-- C2 fails on the code: `"openrouter"` is in the supported-provider set of
the code's own `Config.Validate` (and has a default key variable and an
adapter whose `Name()` is `"openrouter"`), yet with a resolved key present
`NewProvider` returns the unsupported-provider error for it instead of
constructing the OpenRouter adapter — the factory's switch is missing the
openrouter case. -/
theorem NewProvider_openrouter_unsupported :
    validProvider "openrouter" = true ∧
    GetDefaultAPIKeyEnv "openrouter" = "OPENROUTER_API_KEY" ∧
    NewOpenRouterProvider "sk-or-test" = .ok ⟨"openrouter"⟩ ∧
    NewProvider
        ⟨⟨"openrouter", "openai/gpt-4o-mini", "OPENROUTER_API_KEY",
          ⟨3, "exponential", 2000000000⟩, ⟨false, "", "", "", ""⟩⟩⟩
        (fun _ => "sk-or-test") =
      .error ("unsupported AI provider: " ++ "openrouter") := by
  exact ⟨rfl, rfl, rfl, rfl⟩

/-! ## Adapter generation: validation, single attempts, retry wrapping -/

/-- `ai.Response` (the fields the verified claims observe; the
floating-point cost estimate and the metadata map are not modelled). -/
structure AIResponse where
  content : String
  tokensUsed : Nat
  model : String
  provider : String
  deriving Repr, DecidableEq

/-- `OpenAIProvider.ValidateConfig` from openai.go. -/
def OpenAIProvider.ValidateConfig (apiKey model : String) : Option String :=
  if apiKey = "" then some "openAI API key is not set"
  else if model = "" then some "openAI model is not specified"
  else none

/-- `OllamaProvider.ValidateConfig` (ollama adapter source): no key is
required, only the model is checked. -/
def OllamaProvider.ValidateConfig (model : String) : Option String :=
  if model = "" then some "Ollama model is not specified" else none

/-- `AnthropicProvider.ValidateConfig` (anthropic adapter source). -/
def AnthropicProvider.ValidateConfig (apiKey model : String) : Option String :=
  if apiKey = "" then some "Anthropic API key is not set"
  else if model = "" then some "Anthropic model is not specified"
  else none

/-- `CerebrasProvider.ValidateConfig` (cerebras adapter source). -/
def CerebrasProvider.ValidateConfig (apiKey model : String) : Option String :=
  if apiKey = "" then some "cerebras API key is not set"
  else if model = "" then some "cerebras model is not specified"
  else none

/-- `OpenRouterProvider.ValidateConfig` (openrouter adapter source). -/
def OpenRouterProvider.ValidateConfig (apiKey model : String) : Option String :=
  if apiKey = "" then some "openrouter API key is not set"
  else if model = "" then some "openrouter model is not specified"
  else none

/-- Modelled from the spec: the Groq adapter's own source file is missing
from the sources; per the spec its `ValidateConfig` fails exactly on a
missing key or missing model, like the sibling chat adapters. -/
def GroqProvider.ValidateConfig (apiKey model : String) : Option String :=
  if apiKey = "" then some "groq API key is not set"
  else if model = "" then some "groq model is not specified"
  else none

/-- `OpenAIProvider.Generate` from openai.go: the `ValidateConfig` pre-check,
then `RetryWithBackoff` around `generateOnce`.  `gen attempt` is the outcome
of the `attempt`-th `generateOnce` network call; the first component of the
result counts how many such calls were made. -/
def OpenAIProvider.Generate (apiKey model : String) (retry : RetryConfig)
    (gen : Nat → Except String AIResponse) (cancel : Nat → Bool) (ctxErr : String) :
    Nat × Except String AIResponse :=
  match OpenAIProvider.ValidateConfig apiKey model with
  | some e => (0, .error ("invalid configuration: " ++ e))
  | none => RetryWithBackoff retry gen cancel ctxErr

/-- `OllamaProvider.Generate` (ollama adapter source): identical structure
to the other adapters' `Generate` — validate, then retry `generateOnce`. -/
def OllamaProvider.Generate (model : String) (retry : RetryConfig)
    (gen : Nat → Except String AIResponse) (cancel : Nat → Bool) (ctxErr : String) :
    Nat × Except String AIResponse :=
  match OllamaProvider.ValidateConfig model with
  | some e => (0, .error ("invalid configuration: " ++ e))
  | none => RetryWithBackoff retry gen cancel ctxErr

/-- One choice of an OpenAI-compatible chat completion response. -/
structure OpenAIChoice where
  content : String
  finishReason : String
  deriving Repr, DecidableEq

/-- A decoded OpenAI-compatible chat completion response body. -/
structure OpenAIAPIResponse where
  id : String
  model : String
  choices : List OpenAIChoice
  promptTokens : Nat
  completionTokens : Nat
  totalTokens : Nat
  deriving Repr, DecidableEq

/-- `OpenAIProvider.generateOnce` from openai.go, as a function of the HTTP
status and the decoded body (`errMessage` is the message extracted from the
vendor error envelope on a non-200 status, when that envelope parses). -/
def OpenAIProvider.generateOnce (status : Nat) (errMessage : Option String)
    (rawBody : String) (resp : OpenAIAPIResponse) : Except String AIResponse :=
  if status ≠ 200 then
    match errMessage with
    | none => .error ("API error (status " ++ toString status ++ "): " ++ rawBody)
    | some m => .error ("OpenAI API error: " ++ m)
  else
    match resp.choices with
    | [] => .error "no choices in response"
    | c :: _ =>
      .ok { content := c.content, tokensUsed := resp.totalTokens,
            model := resp.model, provider := "openai" }

/-- A decoded Ollama `/api/generate` response body. -/
structure OllamaAPIResponse where
  model : String
  createdAt : String
  response : String
  done : Bool
  deriving Repr, DecidableEq

/-- `OllamaProvider.generateOnce` (ollama adapter source), as a function of
the HTTP status and the decoded body.  Note there is no emptiness check on
the `response` field. -/
def OllamaProvider.generateOnce (status : Nat) (rawBody : String)
    (resp : OllamaAPIResponse) : Except String AIResponse :=
  if status ≠ 200 then
    .error ("Ollama API error (status " ++ toString status ++ "): " ++ rawBody)
  else
    .ok { content := resp.response, tokensUsed := 0,
          model := resp.model, provider := "ollama" }

/-- C6: an adapter's `ValidateConfig` fails exactly when a required API key
is empty or the model is empty (ollama requires no key), and a failing
`ValidateConfig` makes `Generate` return the configuration error with zero
invocations of `generateOnce` — no network call, no retry attempt. -/
theorem ValidateConfig_gates_Generate (apiKey model : String) :
    (OpenAIProvider.ValidateConfig apiKey model ≠ none ↔ (apiKey = "" ∨ model = "")) ∧
    (AnthropicProvider.ValidateConfig apiKey model ≠ none ↔ (apiKey = "" ∨ model = "")) ∧
    (CerebrasProvider.ValidateConfig apiKey model ≠ none ↔ (apiKey = "" ∨ model = "")) ∧
    (OpenRouterProvider.ValidateConfig apiKey model ≠ none ↔ (apiKey = "" ∨ model = "")) ∧
    (GroqProvider.ValidateConfig apiKey model ≠ none ↔ (apiKey = "" ∨ model = "")) ∧
    (OllamaProvider.ValidateConfig model ≠ none ↔ model = "") ∧
    (∀ e, OpenAIProvider.ValidateConfig apiKey model = some e →
      ∀ retry gen cancel ctxErr,
        OpenAIProvider.Generate apiKey model retry gen cancel ctxErr =
          (0, .error ("invalid configuration: " ++ e))) ∧
    (∀ e, OllamaProvider.ValidateConfig model = some e →
      ∀ retry gen cancel ctxErr,
        OllamaProvider.Generate model retry gen cancel ctxErr =
          (0, .error ("invalid configuration: " ++ e))) := by
  refine ⟨?_, ?_, ?_, ?_, ?_, ?_, ?_, ?_⟩
  · unfold OpenAIProvider.ValidateConfig
    split_ifs <;> simp_all
  · unfold AnthropicProvider.ValidateConfig
    split_ifs <;> simp_all
  · unfold CerebrasProvider.ValidateConfig
    split_ifs <;> simp_all
  · unfold OpenRouterProvider.ValidateConfig
    split_ifs <;> simp_all
  · unfold GroqProvider.ValidateConfig
    split_ifs <;> simp_all
  · unfold OllamaProvider.ValidateConfig
    split_ifs <;> simp_all
  · intro e he retry gen cancel ctxErr
    simp [OpenAIProvider.Generate, he]
  · intro e he retry gen cancel ctxErr
    simp [OllamaProvider.Generate, he]

/-- Closed witness for `ValidateConfig_gates_Generate` at an empty API key. -/
theorem ValidateConfig_gates_Generate_witness :
    (OpenAIProvider.ValidateConfig "" "gpt-4o-mini" ≠ none ↔
      ("" = "" ∨ "gpt-4o-mini" = "")) ∧
    (AnthropicProvider.ValidateConfig "" "gpt-4o-mini" ≠ none ↔
      ("" = "" ∨ "gpt-4o-mini" = "")) ∧
    (CerebrasProvider.ValidateConfig "" "gpt-4o-mini" ≠ none ↔
      ("" = "" ∨ "gpt-4o-mini" = "")) ∧
    (OpenRouterProvider.ValidateConfig "" "gpt-4o-mini" ≠ none ↔
      ("" = "" ∨ "gpt-4o-mini" = "")) ∧
    (GroqProvider.ValidateConfig "" "gpt-4o-mini" ≠ none ↔
      ("" = "" ∨ "gpt-4o-mini" = "")) ∧
    (OllamaProvider.ValidateConfig "gpt-4o-mini" ≠ none ↔ "gpt-4o-mini" = "") ∧
    (∀ e, OpenAIProvider.ValidateConfig "" "gpt-4o-mini" = some e →
      ∀ retry gen cancel ctxErr,
        OpenAIProvider.Generate "" "gpt-4o-mini" retry gen cancel ctxErr =
          (0, .error ("invalid configuration: " ++ e))) ∧
    (∀ e, OllamaProvider.ValidateConfig "gpt-4o-mini" = some e →
      ∀ retry gen cancel ctxErr,
        OllamaProvider.Generate "gpt-4o-mini" retry gen cancel ctxErr =
          (0, .error ("invalid configuration: " ++ e))) :=
  ValidateConfig_gates_Generate "" "gpt-4o-mini"

/-- C3 fails as stated: the ollama adapter, on HTTP 200 with an empty
generated-text field, returns a `Response` with empty content and no
error. -/
theorem ollama_empty_completion_not_error :
    OllamaProvider.generateOnce 200 "raw"
        { model := "llama3.2", createdAt := "2025-11-10T00:00:00Z",
          response := "", done := true } =
      .ok { content := "", tokensUsed := 0, model := "llama3.2",
            provider := "ollama" } := rfl

/-- C3 (amended): the OpenAI-compatible chat adapters return an error on an
HTTP 200 response with zero completion choices, and the retry engine retries
that error like any transient failure, up to the configured attempt limit;
the ollama adapter, by contrast, does not treat an empty generated-text
field as an error and returns the empty-content response, and a present
choice with an empty text field is likewise not an error. -/
theorem empty_completion_retried (retry : RetryConfig) (hN : 1 ≤ retry.attempts)
    (errMessage : Option String) (rawBody : String) (resp : OpenAIAPIResponse)
    (hchoices : resp.choices = [])
    (cancel : Nat → Bool) (hcancel : ∀ j, cancel j = false) (ctxErr : String)
    (rawBody2 model createdAt : String) (done : Bool) :
    OpenAIProvider.generateOnce 200 errMessage rawBody resp =
      .error "no choices in response" ∧
    (RetryWithBackoff retry
        (fun _ => OpenAIProvider.generateOnce 200 errMessage rawBody resp)
        cancel ctxErr).1 = retry.attempts ∧
    (RetryWithBackoff retry
        (fun _ => OpenAIProvider.generateOnce 200 errMessage rawBody resp)
        cancel ctxErr).2 =
      .error ("failed after " ++ toString retry.attempts ++ " attempts: " ++
        "no choices in response") ∧
    OllamaProvider.generateOnce 200 rawBody2 ⟨model, createdAt, "", done⟩ =
      .ok ⟨"", 0, model, "ollama"⟩ := by
  have honce : OpenAIProvider.generateOnce 200 errMessage rawBody resp =
      .error "no choices in response" := by
    simp [OpenAIProvider.generateOnce, hchoices]
  obtain ⟨e, he, hrun⟩ :=
    retryGo_all_fail (fun _ => OpenAIProvider.generateOnce 200 errMessage rawBody resp)
      cancel ctxErr retry (fun j => ⟨"no choices in response", honce⟩) hcancel
      (retry.attempts - 1) 1 0 none (by omega)
  have hatt : retry.attempts - 1 + 1 = retry.attempts := by omega
  rw [hatt] at hrun
  have hee : e = "no choices in response" := by
    rw [honce] at he
    cases he
    rfl
  refine ⟨honce, ?_, ?_, rfl⟩
  · rw [RetryWithBackoff, hrun]
    simp only
    omega
  · rw [RetryWithBackoff, hrun]
    simp [failedAfterMsg, hee]

/-- Closed witness for `empty_completion_retried`: two attempts against a
zero-choice HTTP 200 response. -/
theorem empty_completion_retried_witness :
    OpenAIProvider.generateOnce 200 none "raw"
        ⟨"id0", "gpt-4o-mini", [], 5, 0, 5⟩ =
      .error "no choices in response" ∧
    (RetryWithBackoff ⟨2, "exponential", 2000000000⟩
        (fun _ => OpenAIProvider.generateOnce 200 none "raw"
          ⟨"id0", "gpt-4o-mini", [], 5, 0, 5⟩)
        (fun _ => false) "ctx").1 = 2 ∧
    (RetryWithBackoff ⟨2, "exponential", 2000000000⟩
        (fun _ => OpenAIProvider.generateOnce 200 none "raw"
          ⟨"id0", "gpt-4o-mini", [], 5, 0, 5⟩)
        (fun _ => false) "ctx").2 =
      .error ("failed after " ++ toString 2 ++ " attempts: " ++
        "no choices in response") ∧
    OllamaProvider.generateOnce 200 "raw2" ⟨"llama3.2", "now", "", true⟩ =
      .ok ⟨"", 0, "llama3.2", "ollama"⟩ :=
  empty_completion_retried ⟨2, "exponential", 2000000000⟩ (by decide)
    none "raw" ⟨"id0", "gpt-4o-mini", [], 5, 0, 5⟩ rfl
    (fun _ => false) (fun j => rfl) "ctx" "raw2" "llama3.2" "now" true

/-! ## `internal/workflow/workflow.go`: `stripAIHeaders`

`strings.Split(s, "\n")`, `strings.Join(_, "\n")`, `strings.TrimSpace` and
`strings.HasPrefix` are modelled on `List Char`.  `ws` covers the ASCII
whitespace (plus NEL and NBSP) recognized by Go's `unicode.IsSpace`; the
remaining Unicode space classes do not occur in the header patterns and are
not modelled. -/

/-- Whitespace as trimmed by `strings.TrimSpace`. -/
def ws (c : Char) : Bool :=
  c = ' ' || c = '\t' || c = '\n' || c = '\x0b' || c = '\x0c' || c = '\r' ||
    c = '\u0085' || c = '\u00A0'

/-- Remove the trailing run of whitespace (the right half of
`strings.TrimSpace`). -/
def dropRightWs : List Char → List Char
  | [] => []
  | c :: t =>
    match dropRightWs t with
    | [] => if ws c then [] else [c]
    | r => c :: r

/-- `strings.TrimSpace` on `List Char`. -/
def trimChars (l : List Char) : List Char := dropRightWs (l.dropWhile ws)

/-- `strings.Split(s, "\n")` on `List Char` (never empty; splitting the
empty string yields one empty line). -/
def splitNl : List Char → List (List Char)
  | [] => [[]]
  | c :: t =>
    if c = '\n' then [] :: splitNl t
    else
      match splitNl t with
      | [] => [[c]]
      | h :: r => (c :: h) :: r

/-- `strings.Join(lines, "\n")` on `List Char`. -/
def joinNl : List (List Char) → List Char
  | [] => []
  | [x] => x
  | x :: xs => x ++ '\n' :: joinNl xs

/-- The four header patterns of `stripAIHeaders`, checked with
`strings.HasPrefix` against the trimmed line. -/
def headerPats : List (List Char) :=
  ["# Release Notes for".data, "# Changelog for".data,
   "Here are the".data, "Here is the".data]

/-- Whether a trimmed line "looks like an AI header". -/
def isHeaderTrimmed (t : List Char) : Bool :=
  headerPats.any (fun p => p.isPrefixOf t)

/-- Whether a raw line is skipped as an AI header. -/
def isHeaderLine (line : List Char) : Bool := isHeaderTrimmed (trimChars line)

/-- The loop of `stripAIHeaders` from workflow.go: `i` is the line index,
`skipNext` says whether the previous line was a header (so one following
blank line is dropped). -/
def stripLoop : List (List Char) → Nat → Bool → List (List Char)
  | [], _, _ => []
  | line :: rest, i, skipNext =>
    let t := trimChars line
    if isHeaderTrimmed t then stripLoop rest (i + 1) true
    else if skipNext && t.isEmpty then stripLoop rest (i + 1) false
    else if i != 0 || !t.isEmpty then line :: stripLoop rest (i + 1) false
    else stripLoop rest (i + 1) false

/-- `stripAIHeaders` from workflow.go on `List Char`. -/
def stripAIHeaders (content : List Char) : List Char :=
  trimChars (joinNl (stripLoop (splitNl content) 0 false))

/-- `stripAIHeaders` on `String`. -/
def stripAIHeadersS (s : String) : String := ⟨stripAIHeaders s.data⟩

/-! ## `internal/workflow`: the two-stage orchestrator (polish path)

Git data extraction, prompt building and the basic (non-AI) generator are
external collaborators; the verified slice starts where the discovery
provider's `Generate` result is in hand. -/

/-- The `switch polishProvider` of `PolishChangelog` in polish.go (this one
does have an `"openrouter"` case). -/
def PolishProviderSwitch (provider apiKey : String) : Except String Adapter :=
  if provider = "anthropic" then NewAnthropicProvider apiKey
  else if provider = "openai" then NewOpenAIProvider apiKey
  else if provider = "cerebras" then NewCerebrasProvider apiKey
  else if provider = "groq" then NewGroqProvider apiKey
  else if provider = "openrouter" then NewOpenRouterProvider apiKey
  else if provider = "ollama" then NewOllamaProvider
  else .error ("unsupported polish provider: " ++ provider)

/-- `DefaultPolishPrompt` (polish.go) up to its `%s` verb; `%%` renders as
`%` under `fmt.Sprintf`. -/
def defaultPolishPromptPreamble : String :=
  "You are a technical writer specializing in creating polished, customer-facing release notes.\n\nYour task: Take the following changelog and enhance it for customer consumption while maintaining 100% technical accuracy.\n\nRequirements:\n- Keep the Keep a Changelog format (## [version], ### Added/Changed/Fixed sections)\n- Maintain all technical details and accuracy\n- Improve clarity and readability\n- Use professional, customer-friendly language\n- Expand brief descriptions into clear, benefit-focused explanations\n- Add context where helpful without being verbose\n- Ensure consistency in tone and style\n\nOriginal changelog:\n"

/-- `DefaultPolishPrompt` (polish.go) after its `%s` verb. -/
def defaultPolishPromptTail : String :=
  "\n\nOutput only the polished changelog, nothing else."

/-- `fmt.Sprintf(DefaultPolishPrompt, draftChangelog)`. -/
def defaultPolishPrompt (draft : String) : String :=
  defaultPolishPromptPreamble ++ draft ++ defaultPolishPromptTail

/-- `PolishChangelog` from polish.go.  `getKey` is the outcome of
`cfg.GetPolishAPIKey()`; `fmtCustom` models `fmt.Sprintf` applied to a
user-supplied custom polish prompt; `polishGen p` is the outcome (with its
network-call count) of the polish adapter's `Generate` on prompt `p`,
retries included. -/
def PolishChangelog (enabled : Bool) (draft : String) (getKey : Except String String)
    (polishProvider : String) (customPrompt : String)
    (fmtCustom : String → String → String)
    (polishGen : String → Nat × Except String AIResponse) : String × Option String :=
  if !enabled then (draft, none)  -- Polish not enabled, return draft as-is
  else
    match getKey with
    | .error e => ("", some ("failed to get polish API key: " ++ e))
    | .ok key =>
      match PolishProviderSwitch polishProvider key with
      | .error e => ("", some ("failed to create polish AI provider: " ++ e))
      | .ok _ =>
        let prompt := if customPrompt = "" then defaultPolishPrompt draft
                      else fmtCustom customPrompt draft
        match (polishGen prompt).2 with
        | .error e => ("", some ("failed to polish changelog: " ++ e))
        | .ok r => (r.content, none)

/-- `generateAIContent` from workflow.go: wrap a failed discovery
generation, strip AI headers from a successful one. -/
def generateAIContent (discovery : Nat × Except String AIResponse) :
    String × Option String :=
  match discovery.2 with
  | .error e => ("", some ("failed to generate AI response: " ++ e))
  | .ok r => (stripAIHeadersS r.content, none)

/-- The AI branch of `GenerateReleaseNotes` from workflow.go (the
`opts.UseAI && provider != nil` path, with the polish gate
`cfg.AI.Polish.Enabled`). -/
def generateReleaseNotesAI (discovery : Nat × Except String AIResponse)
    (polishEnabled : Bool) (getKey : Except String String) (polishProvider : String)
    (customPrompt : String) (fmtCustom : String → String → String)
    (polishGen : String → Nat × Except String AIResponse) : String × Option String :=
  match generateAIContent discovery with
  | (_, some e) => ("", some e)
  | (content, none) =>
    if polishEnabled then
      match PolishChangelog polishEnabled content getKey polishProvider customPrompt
          fmtCustom polishGen with
      | (_, some e) => ("", some ("failed to polish changelog: " ++ e))
      | (polished, none) => (polished, none)
    else (content, none)

/-- C7: polish enabled, discovery succeeded, polish generation fails (after
its retries): the whole workflow returns the empty string and a non-nil
error — the cleaned discovery output is never returned as a fallback. -/
theorem polish_failure_fails_workflow
    (n : Nat) (r : AIResponse) (getKey : Except String String) (k : String)
    (hkey : getKey = .ok k) (polishProvider : String) (a : Adapter)
    (hpp : PolishProviderSwitch polishProvider k = .ok a)
    (customPrompt : String) (fmtCustom : String → String → String)
    (polishGen : String → Nat × Except String AIResponse) (e0 : String)
    (hfail : ∀ p, (polishGen p).2 = .error e0) :
    generateReleaseNotesAI (n, .ok r) true getKey polishProvider customPrompt
        fmtCustom polishGen =
      ("", some ("failed to polish changelog: " ++
        ("failed to polish changelog: " ++ e0))) ∧
    ∀ s, generateReleaseNotesAI (n, .ok r) true getKey polishProvider customPrompt
        fmtCustom polishGen ≠ (s, none) := by
  have hmain : generateReleaseNotesAI (n, .ok r) true getKey polishProvider customPrompt
      fmtCustom polishGen =
      ("", some ("failed to polish changelog: " ++
        ("failed to polish changelog: " ++ e0))) := by
    simp [generateReleaseNotesAI, generateAIContent, PolishChangelog,
      hkey, hpp, hfail]
  refine ⟨hmain, ?_⟩
  intro s h
  rw [hmain] at h
  simp at h

/-- Closed witness for `polish_failure_fails_workflow`: anthropic polish
stage whose generation always fails after its retries. -/
theorem polish_failure_fails_workflow_witness :
    generateReleaseNotesAI (1, .ok ⟨"## [v1.0]\n- change", 10, "m", "openai"⟩)
        true (.ok "sk-ant") "anthropic" "" (fun f d => f ++ d)
        (fun _ => (3, .error "failed after 3 attempts: boom")) =
      ("", some ("failed to polish changelog: " ++
        ("failed to polish changelog: " ++ "failed after 3 attempts: boom"))) ∧
    ∀ s, generateReleaseNotesAI (1, .ok ⟨"## [v1.0]\n- change", 10, "m", "openai"⟩)
        true (.ok "sk-ant") "anthropic" "" (fun f d => f ++ d)
        (fun _ => (3, .error "failed after 3 attempts: boom")) ≠ (s, none) :=
  polish_failure_fails_workflow 1 ⟨"## [v1.0]\n- change", 10, "m", "openai"⟩
    (.ok "sk-ant") "sk-ant" rfl "anthropic" ⟨"anthropic"⟩ rfl
    "" (fun f d => f ++ d)
    (fun _ => (3, .error "failed after 3 attempts: boom"))
    "failed after 3 attempts: boom" (fun _ => rfl)

/-! ## Line splitting and joining: basic lemmas -/

theorem splitNl_cons (c : Char) (t : List Char) :
    splitNl (c :: t) =
      if c = '\n' then [] :: splitNl t
      else
        match splitNl t with
        | [] => [[c]]
        | h :: r => (c :: h) :: r := rfl

theorem splitNl_ne_nil (l : List Char) : splitNl l ≠ [] := by
  cases l with
  | nil => simp [splitNl]
  | cons c t =>
    rw [splitNl_cons]
    split
    · simp
    · split <;> simp

theorem joinNl_splitNl (l : List Char) : joinNl (splitNl l) = l := by
  induction l with
  | nil => rfl
  | cons c t ih =>
    rw [splitNl_cons]
    by_cases hc : c = '\n'
    · rw [if_pos hc]
      cases hs : splitNl t with
      | nil => exact absurd hs (splitNl_ne_nil t)
      | cons h r =>
        rw [hs] at ih
        subst hc
        simpa [joinNl] using ih
    · rw [if_neg hc]
      cases hs : splitNl t with
      | nil => exact absurd hs (splitNl_ne_nil t)
      | cons h r =>
        rw [hs] at ih
        cases r with
        | nil => simpa [joinNl] using congrArg (c :: ·) ih
        | cons y s => simpa [joinNl] using congrArg (c :: ·) ih

theorem noNl_of_mem_splitNl {l : List Char} {x : List Char}
    (hx : x ∈ splitNl l) : '\n' ∉ x := by
  induction l generalizing x with
  | nil =>
    simp [splitNl] at hx
    simp [hx]
  | cons c t ih =>
    rw [splitNl_cons] at hx
    by_cases hc : c = '\n'
    · rw [if_pos hc] at hx
      rcases List.mem_cons.mp hx with h | h
      · simp [h]
      · exact ih h
    · rw [if_neg hc] at hx
      cases hs : splitNl t with
      | nil => exact absurd hs (splitNl_ne_nil t)
      | cons h r =>
        rw [hs] at hx
        rcases List.mem_cons.mp hx with hmem | hmem
        · subst hmem
          intro hin
          rcases List.mem_cons.mp hin with h1 | h1
          · exact hc h1.symm
          · exact ih (hs ▸ List.mem_cons_self h r) h1
        · exact ih (hs ▸ List.mem_cons.mpr (.inr hmem))

theorem splitNl_eq_single {x : List Char} (hx : '\n' ∉ x) : splitNl x = [x] := by
  induction x with
  | nil => rfl
  | cons c t ih =>
    have hc : c ≠ '\n' := fun h => hx (h ▸ List.mem_cons_self c t)
    have ht : '\n' ∉ t := fun h => hx (List.mem_cons.mpr (.inr h))
    rw [splitNl_cons, if_neg hc, ih ht]

theorem splitNl_append_nl {x : List Char} (hx : '\n' ∉ x) (m : List Char) :
    splitNl (x ++ '\n' :: m) = x :: splitNl m := by
  induction x with
  | nil => simp [splitNl_cons]
  | cons c t ih =>
    have hc : c ≠ '\n' := fun h => hx (h ▸ List.mem_cons_self c t)
    have ht : '\n' ∉ t := fun h => hx (List.mem_cons.mpr (.inr h))
    rw [List.cons_append, splitNl_cons, if_neg hc, ih ht]

theorem splitNl_joinNl {res : List (List Char)} (hne : res ≠ [])
    (hnl : ∀ x ∈ res, '\n' ∉ x) : splitNl (joinNl res) = res := by
  induction res with
  | nil => exact absurd rfl hne
  | cons x rest ih =>
    cases rest with
    | nil =>
      show splitNl (joinNl [x]) = [x]
      rw [show joinNl [x] = x from rfl]
      exact splitNl_eq_single (hnl x (List.mem_cons_self x []))
    | cons y s =>
      rw [show joinNl (x :: y :: s) = x ++ '\n' :: joinNl (y :: s) from rfl]
      rw [splitNl_append_nl (hnl x (List.mem_cons_self x (y :: s)))]
      rw [ih (by simp) (fun z hz => hnl z (List.mem_cons.mpr (.inr hz)))]

/-! ## Trimming lemmas -/

theorem dropRightWs_cons (c : Char) (t : List Char) :
    dropRightWs (c :: t) =
      match dropRightWs t with
      | [] => if ws c then [] else [c]
      | r => c :: r := rfl

theorem dropRightWs_ne_nil_of_head {c : Char} (hc : ws c = false) (t : List Char) :
    dropRightWs (c :: t) ≠ [] := by
  rw [dropRightWs_cons]
  cases hd : dropRightWs t with
  | nil => simp [hc]
  | cons d r => simp

theorem dropRightWs_idem (l : List Char) : dropRightWs (dropRightWs l) = dropRightWs l := by
  induction l with
  | nil => rfl
  | cons c t ih =>
    rw [dropRightWs_cons]
    cases hd : dropRightWs t with
    | nil =>
      by_cases hc : ws c
      · simp [hc, dropRightWs]
      · simp only [if_neg hc]
        rw [show ([c] : List Char) = c :: ([] : List Char) from rfl, dropRightWs_cons]
        simp [dropRightWs, hc]
    | cons d r =>
      simp only
      rw [dropRightWs_cons]
      rw [hd] at ih
      rw [ih]

theorem dropRightWs_eq_nil_iff (l : List Char) :
    dropRightWs l = [] ↔ ∀ c ∈ l, ws c = true := by
  induction l with
  | nil => simp [dropRightWs]
  | cons c t ih =>
    rw [dropRightWs_cons]
    cases hd : dropRightWs t with
    | nil =>
      have ht : ∀ c ∈ t, ws c = true := ih.mp hd
      by_cases hc : ws c
      · simp only [if_pos hc]
        constructor
        · intro _
          intro d hdm
          rcases List.mem_cons.mp hdm with h | h
          · exact h ▸ hc
          · exact ht d h
        · intro _
          trivial
      · simp only [if_neg hc]
        constructor
        · intro h
          exact absurd h (by simp)
        · intro h
          exact absurd (h c (List.mem_cons_self c t)) (by simpa using hc)
    | cons d r =>
      simp only
      constructor
      · intro h
        exact absurd h (by simp)
      · intro h
        have : dropRightWs t = [] := ih.mpr (fun e he => h e (List.mem_cons.mpr (.inr he)))
        rw [this] at hd
        exact absurd hd (by simp)

theorem mem_of_mem_dropRightWs {l : List Char} {x : Char}
    (hx : x ∈ dropRightWs l) : x ∈ l := by
  induction l generalizing x with
  | nil => simp [dropRightWs] at hx
  | cons c t ih =>
    rw [dropRightWs_cons] at hx
    cases hd : dropRightWs t with
    | nil =>
      rw [hd] at hx
      by_cases hc : ws c
      · simp [hc] at hx
      · simp only [if_neg hc] at hx
        simp at hx
        simp [hx]
    | cons d r =>
      rw [hd] at hx
      simp only at hx
      rcases List.mem_cons.mp hx with h | h
      · simp [h]
      · exact List.mem_cons.mpr (.inr (ih (hd ▸ h)))

theorem dropRightWs_append (a b : List Char) :
    dropRightWs (a ++ b) =
      if dropRightWs b = [] then dropRightWs a else a ++ dropRightWs b := by
  induction a with
  | nil =>
    by_cases hb : dropRightWs b = [] <;> simp [hb, dropRightWs]
  | cons c a' ih =>
    rw [List.cons_append, dropRightWs_cons, ih]
    by_cases hb : dropRightWs b = []
    · simp only [if_pos hb]
      rw [dropRightWs_cons]
    · simp only [if_neg hb]
      cases hab : a' ++ dropRightWs b with
      | nil => exact absurd (List.append_eq_nil.mp hab).2 hb
      | cons d r => simp [← hab]

theorem length_dropRightWs_le (l : List Char) : (dropRightWs l).length ≤ l.length := by
  induction l with
  | nil => simp [dropRightWs]
  | cons c t ih =>
    rw [dropRightWs_cons]
    cases hd : dropRightWs t with
    | nil =>
      by_cases hc : ws c <;> simp [hc]
    | cons d r =>
      rw [hd] at ih
      simpa using ih

theorem length_dropWhile_ws_le (l : List Char) :
    (l.dropWhile ws).length ≤ l.length := by
  induction l with
  | nil => simp
  | cons c t ih =>
    rw [List.dropWhile_cons]
    split
    · simp only [List.length_cons]
      omega
    · simp

theorem dropWhile_ws_head {l : List Char} {c : Char} {r : List Char}
    (h : l.dropWhile ws = c :: r) : ws c = false := by
  induction l with
  | nil => simp [List.dropWhile] at h
  | cons d t ih =>
    rw [List.dropWhile_cons] at h
    by_cases hd : ws d
    · rw [if_pos (by simpa using hd)] at h
      exact ih h
    · rw [if_neg (by simpa using hd)] at h
      cases h
      simpa using hd

theorem dropWhile_ws_idem (l : List Char) :
    (l.dropWhile ws).dropWhile ws = l.dropWhile ws := by
  cases hd : l.dropWhile ws with
  | nil => rfl
  | cons c r =>
    rw [List.dropWhile_cons, if_neg (by simp [dropWhile_ws_head hd])]

theorem trimChars_cons_ws {c : Char} (hc : ws c = true) (l : List Char) :
    trimChars (c :: l) = trimChars l := by
  unfold trimChars
  rw [List.dropWhile_cons, if_pos (by simp [hc])]

theorem trimChars_idem (l : List Char) : trimChars (trimChars l) = trimChars l := by
  unfold trimChars
  cases hg : dropRightWs (l.dropWhile ws) with
  | nil => rfl
  | cons c r =>
    have hdw : (c :: r).dropWhile ws = c :: r := by
      have hcw : ws c = false := by
        cases hd : l.dropWhile ws with
        | nil => rw [hd] at hg; simp [dropRightWs] at hg
        | cons d t =>
          rw [hd] at hg
          rw [dropRightWs_cons] at hg
          cases he : dropRightWs t with
          | nil =>
            rw [he] at hg
            by_cases hw : ws d
            · simp [hw] at hg
            · simp only [if_neg hw] at hg
              cases hg
              simpa using hw
          | cons f s =>
            rw [he] at hg
            simp only at hg
            cases hg
            exact dropWhile_ws_head hd
      rw [List.dropWhile_cons, if_neg (by simp [hcw])]
    rw [hdw, ← hg, dropRightWs_idem]

theorem trimChars_cons_not_ws {c : Char} (hc : ws c = false) (l : List Char) :
    trimChars (c :: l) = dropRightWs (c :: l) := by
  unfold trimChars
  rw [List.dropWhile_cons, if_neg (by simp [hc])]

theorem trimChars_dropRightWs (l : List Char) :
    trimChars (dropRightWs l) = trimChars l := by
  induction l with
  | nil => rfl
  | cons c t ih =>
    rw [dropRightWs_cons]
    cases hd : dropRightWs t with
    | nil =>
      have ht : trimChars t = [] := by
        rw [← ih, hd]
        rfl
      by_cases hc : ws c
      · rw [if_pos hc, trimChars_cons_ws hc, ht]
        rfl
      · have hcf : ws c = false := by simpa using hc
        rw [if_neg hc, trimChars_cons_not_ws hcf, trimChars_cons_not_ws hcf]
        rw [dropRightWs_cons, dropRightWs_cons, hd]
        rfl
    | cons d r =>
      simp only
      have h2 : dropRightWs (d :: r) = d :: r := by
        rw [← hd, dropRightWs_idem]
      by_cases hc : ws c
      · rw [trimChars_cons_ws hc, trimChars_cons_ws hc, ← hd]
        exact ih
      · have hcf : ws c = false := by simpa using hc
        rw [trimChars_cons_not_ws hcf, trimChars_cons_not_ws hcf]
        rw [dropRightWs_cons, h2, dropRightWs_cons, hd]

/-! ## Header-line lemmas -/

/-- No line of `l` (after splitting on newlines) looks like an AI header. -/
def noHeaderLines (l : List Char) : Prop :=
  ∀ x ∈ splitNl l, isHeaderLine x = false

theorem isHeaderLine_nil : isHeaderLine [] = false := by decide

theorem noHeaderLines_nil : noHeaderLines ([] : List Char) := by
  intro x hx
  simp [splitNl] at hx
  subst hx
  exact isHeaderLine_nil

theorem isHeaderLine_cons_ws {c : Char} (hc : ws c = true) (l : List Char) :
    isHeaderLine (c :: l) = isHeaderLine l := by
  unfold isHeaderLine
  rw [trimChars_cons_ws hc]

theorem noHeaderLines_tail_of_ws {c : Char} {t : List Char} (hc : ws c = true)
    (h : noHeaderLines (c :: t)) : noHeaderLines t := by
  by_cases hcn : c = '\n'
  · intro x hx
    apply h
    rw [splitNl_cons, if_pos hcn]
    exact List.mem_cons.mpr (.inr hx)
  · intro x hx
    cases hs : splitNl t with
    | nil => exact absurd hs (splitNl_ne_nil t)
    | cons h0 r =>
      rw [hs] at hx
      rcases List.mem_cons.mp hx with hm | hm
      · subst hm
        rw [← isHeaderLine_cons_ws hc]
        apply h
        rw [splitNl_cons, if_neg hcn, hs]
        exact List.mem_cons_self _ _
      · apply h
        rw [splitNl_cons, if_neg hcn, hs]
        exact List.mem_cons.mpr (.inr hm)

theorem noHeaderLines_dropWhile {l : List Char} (h : noHeaderLines l) :
    noHeaderLines (l.dropWhile ws) := by
  induction l with
  | nil => exact h
  | cons c t ih =>
    rw [List.dropWhile_cons]
    by_cases hc : ws c = true
    · rw [if_pos (by simp [hc])]
      exact ih (noHeaderLines_tail_of_ws hc h)
    · rw [if_neg (by simpa using hc)]
      exact h

theorem noHeaderLines_single {x : List Char} (hnl : '\n' ∉ x)
    (hx : isHeaderLine x = false) : noHeaderLines x := by
  intro y hy
  rw [splitNl_eq_single hnl] at hy
  simp at hy
  subst hy
  exact hx

theorem noHeaderLines_dropRightWs_single {x : List Char} (hnl : '\n' ∉ x)
    (hx : isHeaderLine x = false) : noHeaderLines (dropRightWs x) := by
  apply noHeaderLines_single
  · intro hmem
    exact hnl (mem_of_mem_dropRightWs hmem)
  · show isHeaderTrimmed (trimChars (dropRightWs x)) = false
    rw [trimChars_dropRightWs]
    exact hx

theorem noHeaderLines_joinNl {res : List (List Char)}
    (hnl : ∀ x ∈ res, '\n' ∉ x) (hh : ∀ x ∈ res, isHeaderLine x = false) :
    noHeaderLines (joinNl res) := by
  cases res with
  | nil => exact noHeaderLines_nil
  | cons a b =>
    intro x hx
    rw [splitNl_joinNl (by simp) hnl] at hx
    exact hh x hx

theorem noHeaderLines_dropRightWs_joinNl {res : List (List Char)}
    (hnl : ∀ x ∈ res, '\n' ∉ x) (hh : ∀ x ∈ res, isHeaderLine x = false) :
    noHeaderLines (dropRightWs (joinNl res)) := by
  induction res with
  | nil => exact noHeaderLines_nil
  | cons x rest ih =>
    have hxm : x ∈ x :: rest := List.mem_cons_self _ _
    cases rest with
    | nil => exact noHeaderLines_dropRightWs_single (hnl x hxm) (hh x hxm)
    | cons y s =>
      rw [show joinNl (x :: y :: s) = x ++ '\n' :: joinNl (y :: s) from rfl]
      rw [dropRightWs_append]
      by_cases hJ : dropRightWs ('\n' :: joinNl (y :: s)) = []
      · rw [if_pos hJ]
        exact noHeaderLines_dropRightWs_single (hnl x hxm) (hh x hxm)
      · rw [if_neg hJ]
        have hJ' : dropRightWs (joinNl (y :: s)) ≠ [] := by
          intro h0
          apply hJ
          rw [dropRightWs_cons, h0]
          simp [ws]
        have heq : dropRightWs ('\n' :: joinNl (y :: s)) =
            '\n' :: dropRightWs (joinNl (y :: s)) := by
          rw [dropRightWs_cons]
          cases hh0 : dropRightWs (joinNl (y :: s)) with
          | nil => exact absurd hh0 hJ'
          | cons a b => rfl
        rw [heq]
        intro z hz
        rw [splitNl_append_nl (hnl x hxm)] at hz
        rcases List.mem_cons.mp hz with hm | hm
        · rw [hm]
          exact hh x hxm
        · exact ih (fun w hw => hnl w (List.mem_cons.mpr (.inr hw)))
            (fun w hw => hh w (List.mem_cons.mpr (.inr hw))) z hm

theorem noHeaderLines_dropRightWs {l : List Char} (h : noHeaderLines l) :
    noHeaderLines (dropRightWs l) := by
  have hres := @noHeaderLines_dropRightWs_joinNl (splitNl l)
    (fun x hx => noNl_of_mem_splitNl hx) (fun x hx => h x hx)
  rwa [joinNl_splitNl] at hres

theorem noHeaderLines_trimChars {l : List Char} (h : noHeaderLines l) :
    noHeaderLines (trimChars l) :=
  noHeaderLines_dropRightWs (noHeaderLines_dropWhile h)

/-! ## `stripLoop` lemmas -/

theorem stripLoop_cons (line : List Char) (rest : List (List Char)) (i : Nat) (sk : Bool) :
    stripLoop (line :: rest) i sk =
      if isHeaderTrimmed (trimChars line) then stripLoop rest (i + 1) true
      else if sk && (trimChars line).isEmpty then stripLoop rest (i + 1) false
      else if i != 0 || !(trimChars line).isEmpty then line :: stripLoop rest (i + 1) false
      else stripLoop rest (i + 1) false := rfl

theorem stripLoop_no_header {lines : List (List Char)} {i : Nat} {sk : Bool}
    {x : List Char} (hx : x ∈ stripLoop lines i sk) :
    x ∈ lines ∧ isHeaderLine x = false := by
  induction lines generalizing i sk with
  | nil => simp [stripLoop] at hx
  | cons line rest ih =>
    rw [stripLoop_cons] at hx
    by_cases h1 : isHeaderTrimmed (trimChars line) = true
    · rw [if_pos h1] at hx
      obtain ⟨hm, hhd⟩ := ih hx
      exact ⟨List.mem_cons.mpr (.inr hm), hhd⟩
    · rw [if_neg h1] at hx
      by_cases h2 : (sk && (trimChars line).isEmpty) = true
      · rw [if_pos h2] at hx
        obtain ⟨hm, hhd⟩ := ih hx
        exact ⟨List.mem_cons.mpr (.inr hm), hhd⟩
      · rw [if_neg h2] at hx
        by_cases h3 : (i != 0 || !(trimChars line).isEmpty) = true
        · rw [if_pos h3] at hx
          rcases List.mem_cons.mp hx with hm | hm
          · subst hm
            exact ⟨List.mem_cons_self _ _, by simpa using h1⟩
          · obtain ⟨hm', hhd⟩ := ih hm
            exact ⟨List.mem_cons.mpr (.inr hm'), hhd⟩
        · rw [if_neg h3] at hx
          obtain ⟨hm, hhd⟩ := ih hx
          exact ⟨List.mem_cons.mpr (.inr hm), hhd⟩

theorem stripLoop_keep_all {lines : List (List Char)}
    (hh : ∀ x ∈ lines, isHeaderLine x = false) :
    ∀ i, i ≠ 0 → stripLoop lines i false = lines := by
  induction lines with
  | nil =>
    intro i _
    rfl
  | cons line rest ih =>
    intro i hi
    rw [stripLoop_cons]
    have hline : isHeaderTrimmed (trimChars line) = false :=
      hh line (List.mem_cons_self _ _)
    rw [if_neg (by simp [hline])]
    rw [if_neg (by simp)]
    rw [if_pos (by simp [hi])]
    rw [ih (fun x hx => hh x (List.mem_cons.mpr (.inr hx))) (i + 1) (by omega)]

/-! ## `stripAIHeaders`: fixed points and idempotence -/

theorem stripAIHeaders_fixed {s : List Char} (htrim : trimChars s = s)
    (hh : noHeaderLines s) : stripAIHeaders s = s := by
  cases s with
  | nil => rfl
  | cons c t =>
    have hcw : ws c = false := by
      by_contra hcc
      have hcw' : ws c = true := by simpa using hcc
      have h1 : trimChars (c :: t) = trimChars t := trimChars_cons_ws hcw' t
      have h2 : (trimChars t).length ≤ t.length := by
        unfold trimChars
        calc (dropRightWs (t.dropWhile ws)).length
            ≤ (t.dropWhile ws).length := length_dropRightWs_le _
          _ ≤ t.length := length_dropWhile_ws_le t
      rw [htrim] at h1
      have := congrArg List.length h1
      simp at this
      omega
    have hcn : c ≠ '\n' := by
      intro h
      rw [h] at hcw
      simp [ws] at hcw
    have hkeep : stripLoop (splitNl (c :: t)) 0 false = splitNl (c :: t) := by
      rw [splitNl_cons, if_neg hcn]
      cases hs : splitNl t with
      | nil => exact absurd hs (splitNl_ne_nil t)
      | cons h0 r =>
        rw [stripLoop_cons]
        have hline : isHeaderTrimmed (trimChars (c :: h0)) = false := by
          have : isHeaderLine (c :: h0) = false := by
            apply hh
            rw [splitNl_cons, if_neg hcn, hs]
            exact List.mem_cons_self _ _
          exact this
        rw [if_neg (by simp [hline])]
        rw [if_neg (by simp)]
        have hne : trimChars (c :: h0) ≠ [] := by
          rw [trimChars_cons_not_ws hcw]
          exact dropRightWs_ne_nil_of_head hcw h0
        rw [if_pos (by simp [List.isEmpty_iff, hne])]
        rw [stripLoop_keep_all (fun x hx => by
          apply hh
          rw [splitNl_cons, if_neg hcn, hs]
          exact List.mem_cons.mpr (.inr hx)) 1 (by omega)]
    show trimChars (joinNl (stripLoop (splitNl (c :: t)) 0 false)) = c :: t
    rw [hkeep, joinNl_splitNl, htrim]

theorem stripAIHeaders_trim_fixed (content : List Char) :
    trimChars (stripAIHeaders content) = stripAIHeaders content :=
  trimChars_idem _

theorem stripAIHeaders_no_header (content : List Char) :
    noHeaderLines (stripAIHeaders content) := by
  have hmem : ∀ x ∈ stripLoop (splitNl content) 0 false,
      x ∈ splitNl content ∧ isHeaderLine x = false :=
    fun _ hx => stripLoop_no_header hx
  exact noHeaderLines_trimChars (noHeaderLines_joinNl
    (fun x hx => noNl_of_mem_splitNl (hmem x hx).1)
    (fun x hx => (hmem x hx).2))

theorem stripAIHeaders_idem (content : List Char) :
    stripAIHeaders (stripAIHeaders content) = stripAIHeaders content :=
  stripAIHeaders_fixed (stripAIHeaders_trim_fixed content)
    (stripAIHeaders_no_header content)

/-- C10: `stripAIHeaders` is idempotent — applying the orchestrator's header
stripping to already-stripped output changes nothing. -/
theorem stripAIHeadersS_idem (s : String) :
    stripAIHeadersS (stripAIHeadersS s) = stripAIHeadersS s :=
  congrArg (fun l => (⟨l⟩ : String)) (stripAIHeaders_idem s.data)

end PromptextNotes
